import Mathlib

/-!
Verification development for the PRESTO `.dat` time-series reader
(`src/formats/datfile.py`, class `Datfile`) of the pypulsar repository.

Modelling conventions:
* Python floats are modelled as exact rationals (`ℚ`).
* `np.round` is round-half-to-even (`npround`), as numpy implements it.
* The binary sample file is a `List ℚ` together with an explicit file
  position measured in samples (`filepos`); `np.fromfile` reads at the
  current position and never reads past end-of-file.
* Raised Python exceptions are modelled by the inductive type `PyErr`.
  In Python 3, `raise "some string"` raises a `TypeError` (string
  exceptions are illegal), which is modelled by `PyErr.typeError`.
* `psr_utils.SECPERDAY = 86400`.
-/

namespace Pypulsar

/-- Python exceptions that the modelled code can raise. `formatError`
stands for a hypothetical typed format-mismatch exception (the spec's
`FormatError`); the code never actually constructs one. -/
inductive PyErr where
  | formatError
  | typeError
  | valueError
  | notImplementedError
deriving DecidableEq, Repr

/-- numpy rounding: round half to even, `np.round : float -> float`,
restricted to producing the integer value. -/
def npround (x : ℚ) : ℤ :=
  let f : ℤ := ⌊x⌋
  let r : ℚ := x - f
  if r < 1/2 then f
  else if 1/2 < r then f + 1
  else if f % 2 = 0 then f else f + 1

/-- Python `math.fmod`-style remainder on rationals for positive modulus,
used by `np.fmod` in `correct_infdata`. -/
def qfmod (a b : ℚ) : ℚ := a - b * ⌊a / b⌋

/-- Metadata record loaded from the `.inf` sidecar file (the fields of
the `infodata` object that `datfile.py` reads).  An absent `epoch`
attribute (`hasattr(inf, 'epoch') == False`) is modelled by `none`. -/
structure InfData where
  dt : ℚ
  n : ℕ
  epoch : Option ℚ
  telescope : String
  instrument : String
  lofreq : ℚ
  chan_width : ℚ
  bw : ℚ
  dm : ℚ
  tepoch : ℚ
deriving DecidableEq, Repr

/-- Case-insensitive substring membership, `needle in hay.lower()` in
Python.  `hasSub needle hay` checks whether `needle` occurs contiguously
in `hay`. -/
def hasSub (needle hay : List Char) : Bool :=
  match hay with
  | [] => needle.isEmpty
  | _ :: t => needle.isPrefixOf hay || hasSub needle t

/-- Python `needle in hay.lower()` on strings.  (`str.lower` is modelled
per character, which agrees with Python on ASCII identifiers such as the
instrument names compared here.) -/
def inLower (needle hay : String) : Bool :=
  hasSub needle.toList (hay.toList.map Char.toLower)

/-- Python `s.endswith(ending)`. -/
def pyEndsWith (s ending : String) : Bool :=
  ending.toList.isSuffixOf s.toList

/-- `correct_infdata` from `datfile.py`: empirical SPIGOT corrections,
applied in place to the metadata at load time.  Faithful to the source,
including the `np.fabs(np.fmod(inf.dt, 8.192e-05) < 1e-12)` guard (whose
truthiness equals the inner comparison) and the `tepoch` slip in the
800/2048 early-epoch branch. -/
def correct_infdata (inf : InfData) : InfData :=
  if inf.telescope = "GBT" then
    if qfmod inf.dt (8192/100000000) < 1/1000000000000 ∧
       (inLower "spigot" inf.instrument ∨ ¬ inLower "guppi" inf.instrument) then
      if inf.chan_width = 800/1024 then
        let inf := { inf with lofreq := inf.lofreq - 1/2 * inf.chan_width }
        if inf.epoch.getD 0 > 0 then
          { inf with epoch := some (inf.epoch.getD 0 + (39365/1000000) / 86400) }
        else inf
      else if inf.chan_width = 800/2048 then
        let inf := { inf with lofreq := inf.lofreq - 1/2 * inf.chan_width }
        if inf.epoch.getD 0 < 53700 then
          if inf.epoch.getD 0 > 0 then
            { inf with tepoch := inf.tepoch + (39352/1000000) / 86400 }
          else inf
        else
          if inf.epoch.getD 0 > 0 then
            { inf with epoch := some (inf.epoch.getD 0 + (39365/1000000) / 86400) }
          else inf
      else if inf.chan_width = 50/1024 ∨ inf.chan_width = 50/2048 then
        let inf := { inf with lofreq := inf.lofreq + 1/2 * inf.chan_width }
        if inf.epoch.getD 0 > 0 then
          { inf with epoch := some (inf.epoch.getD 0 + (39450/1000000) / 86400) }
        else inf
      else inf
    else inf
  else inf

/-- The state of a `Datfile` object: the loaded metadata, the contents of
the binary sample file, the file handle position (in samples), and the
sample/time/MJD counters.  `currmjd_actual` and `currmjd_desired` are
only meaningful when `inf.epoch` is present (in Python the attributes do
not exist otherwise); they are initialised to 0 here. -/
structure Datfile where
  inf : InfData
  data : List ℚ
  filepos : ℕ
  currsample : ℤ
  currtime_actual : ℚ
  currtime_desired : ℚ
  currmjd_actual : ℚ
  currmjd_desired : ℚ
deriving DecidableEq, Repr

/-- `np.fromfile(f, count)` at sample position `pos`: for nonnegative
`count` it reads at most `count` samples (fewer at end-of-file) and
advances the position by the number actually read; for negative `count`
numpy reads the whole remainder of the file. -/
def fromfile (data : List ℚ) (pos : ℕ) (count : ℤ) : List ℚ × ℕ :=
  if count < 0 then (data.drop pos, max pos data.length)
  else ((data.drop pos).take count.toNat,
        pos + min count.toNat (data.length - pos))

/-- `Datfile.__read(N)`: return `N` samples (as `some` block) and advance
the sample counter and the actual clocks, or return `none` without
touching any state when fewer than `N` samples remain before
`infdata.N`. -/
def dunder_read (s : Datfile) (n : ℤ) : Option (List ℚ) × Datfile :=
  let new_curr := s.currsample + n
  if new_curr > (s.inf.n : ℤ) then (none, s)
  else
    let out := fromfile s.data s.filepos n
    (some out.1,
     { s with
        currsample := new_curr
        currmjd_actual :=
          if s.inf.epoch.isSome then
            s.currmjd_actual + s.inf.dt * n / 86400
          else s.currmjd_actual
        currtime_actual := s.currtime_actual + s.inf.dt * n
        filepos := out.2 })

/-- `Datfile.__seek(N)`: position the file handle at sample `N` and set
the sample counter and actual clocks accordingly.  A negative byte
offset makes Python's `file.seek` raise `ValueError` before any state is
modified. -/
def dunder_seek (s : Datfile) (n : ℤ) : Except PyErr Datfile :=
  if n < 0 then .error .valueError
  else .ok
    { s with
        filepos := n.toNat
        currsample := n
        currmjd_actual :=
          if s.inf.epoch.isSome then s.inf.dt * n / 86400
          else s.currmjd_actual
        currtime_actual := s.inf.dt * n }

/-- `Datfile.__update_desired_time(T)`. -/
def update_desired_time (s : Datfile) (t : ℚ) : Datfile :=
  { s with
      currtime_desired := s.currtime_desired + t
      currmjd_desired :=
        if s.inf.epoch.isSome then s.currmjd_desired + t / 86400
        else s.currmjd_desired }

/-- `Datfile.rewind()`: seek to the beginning and reset all counters;
the MJD counters are reset to the epoch when one exists. -/
def rewind (s : Datfile) : Datfile :=
  { s with
      filepos := 0
      currsample := 0
      currtime_actual := 0
      currtime_desired := 0
      currmjd_actual := match s.inf.epoch with
        | some e => e
        | none => s.currmjd_actual
      currmjd_desired := match s.inf.epoch with
        | some e => e
        | none => s.currmjd_desired }

/-- `Datfile.read_Nsamples(N)`: `__read(N)`, then on success advance the
desired clocks by `N * dt`. -/
def read_Nsamples (s : Datfile) (n : ℤ) : Option (List ℚ) × Datfile :=
  let out := dunder_read s n
  match out.1 with
  | some d => (some d, update_desired_time out.2 (n * s.inf.dt))
  | none => (none, out.2)

/-- `Datfile.read_to(N)`: read from the current sample through sample
`N` (`N = -1` means to the end of the file). -/
def read_to (s : Datfile) (n : ℤ) : Option (List ℚ) × Datfile :=
  let numtoread := if n = -1 then (s.inf.n : ℤ) - s.currsample
                   else n - s.currsample
  read_Nsamples s numtoread

/-- `Datfile.seek_to(T)`: rewind, jump (without data transfer) to sample
`round(T/dt)`, set the desired clocks to `T` exactly, and return the
number of samples skipped. -/
def seek_to (s : Datfile) (t : ℚ) : Except PyErr (ℤ × Datfile) :=
  let s1 := rewind s
  let endsample := npround ((s1.currtime_desired + t) / s1.inf.dt)
  let sample_num := endsample - s1.currsample
  (dunder_seek s1 sample_num).map fun s2 =>
    (sample_num,
      { s2 with
          currtime_desired := t
          currmjd_desired := match s2.inf.epoch with
            | some e => e + t / 86400
            | none => s2.currmjd_desired })

/-- `Datfile.read_Tseconds(T)`: convert the desired-time advance `T`
into a sample count with `round((currtime_desired + T)/dt) - currsample`,
delegate to `__read`, and on success advance the desired clocks by
exactly `T`. -/
def read_Tseconds (s : Datfile) (t : ℚ) : Option (List ℚ) × Datfile :=
  let endsample := npround ((s.currtime_desired + t) / s.inf.dt)
  let num := endsample - s.currsample
  let out := dunder_read s num
  match out.1 with
  | some d => (some d, update_desired_time out.2 t)
  | none => (none, out.2)

/-- `Datfile.read_all()`: rewind, then `__read` every sample. -/
def read_all (s : Datfile) : Option (List ℚ) × Datfile :=
  dunder_read (rewind s) (s.inf.n : ℤ)

/-- Modelled from the spec: the `Pulse` record of `src/formats/pulse.py`
(the `pulse` module is not under `src/`); per the spec a pulse segment
carries a 1-based sequence number, nominal start time and MJD, duration,
the sample block, and metadata copied from the reader. -/
structure Pulse where
  number : ℕ
  mjd : ℚ
  time : ℚ
  duration : ℚ
  profile : List ℚ
  dt : ℚ
  dm : ℚ
  telescope : String
  lofreq : ℚ
  chan_width : ℚ
  bw : ℚ
deriving DecidableEq, Repr

/-- The loop body of the `Datfile.pulses` generator, with explicit fuel
(the Python generator can in principle run forever, e.g. for period 0).
`num` is the sequence number of the next pulse.  The loop captures the
actual time/MJD, evaluates the period function at that MJD, reads one
period with `read_Tseconds`, and stops at the first `none`. -/
def pulses_aux (period_at_mjd : ℚ → ℚ) :
    ℕ → Datfile → ℕ → List Pulse × Datfile
  | 0, s, _ => ([], s)
  | fuel + 1, s, num =>
    let current_time := s.currtime_actual
    let current_mjd := s.currmjd_actual
    let current_period := period_at_mjd current_mjd
    let out := read_Tseconds s current_period
    match out.1 with
    | some prof =>
      let rest := pulses_aux period_at_mjd fuel out.2 (num + 1)
      ({ number := num, mjd := current_mjd, time := current_time,
         duration := current_period, profile := prof,
         dt := s.inf.dt, dm := s.inf.dm, telescope := s.inf.telescope,
         lofreq := s.inf.lofreq, chan_width := s.inf.chan_width,
         bw := s.inf.bw } :: rest.1, rest.2)
    | none => ([], out.2)

/-- `Datfile.pulses(period_at_mjd, time_to_skip)`: raise
`NotImplementedError` (before touching any state) when the metadata has
no epoch; otherwise rewind, burn `time_to_skip` seconds when positive,
and iterate period-length reads.  Returns the produced pulses and the
final reader state. -/
def pulses (s : Datfile) (period_at_mjd : ℚ → ℚ) (time_to_skip : ℚ)
    (fuel : ℕ) : Except PyErr (List Pulse) × Datfile :=
  if s.inf.epoch.isNone then (.error .notImplementedError, s)
  else
    let s0 := rewind s
    let s1 := if time_to_skip > 0 then (read_Tseconds s0 time_to_skip).2
              else s0
    let out := pulses_aux period_at_mjd fuel s1 1
    (.ok out.1, out.2)

/-- The loop body of `Datfile.get_baseline_spline`: the reader-state
effect of repeatedly calling `read_Tseconds span` until the sentinel
(the medians and the scipy spline fit do not touch the reader state and
are outside the model), with explicit fuel. -/
def baseline_loop (span : ℚ) : ℕ → Datfile → Datfile
  | 0, s => s
  | fuel + 1, s =>
    let out := read_Tseconds s span
    match out.1 with
    | some _ => baseline_loop span fuel out.2
    | none => out.2

/-- `Datfile.get_baseline_spline(span)`: reader-state effect (rewind,
then the read loop). -/
def get_baseline_spline_state (s : Datfile) (span : ℚ) (fuel : ℕ) :
    Datfile :=
  baseline_loop span fuel (rewind s)

/-- A freshly constructed reader state over metadata `inf` and file
contents `data` (the state right after `__init__` runs `rewind`). -/
def mkDatfile (inf : InfData) (data : List ℚ) : Datfile :=
  rewind
    { inf := inf, data := data, filepos := 0, currsample := 0,
      currtime_actual := 0, currtime_desired := 0,
      currmjd_actual := 0, currmjd_desired := 0 }

/-- `Datfile.__init__(datfn)`: check the `.dat` extension (in Python 3
the `raise "..."` statement on the failure path raises `TypeError`, not
a typed format error), load and correct the metadata, and rewind.
`inf` and `data` stand for the contents of the two files at `datfn`. -/
def datfile_init (datfn : String) (inf : InfData) (data : List ℚ) :
    Except PyErr Datfile :=
  if pyEndsWith datfn ".dat" then
    .ok (mkDatfile (correct_infdata inf) data)
  else
    .error .typeError

/-- The state-tracking invariant claimed by the spec. -/
def SampleInv (s : Datfile) : Prop :=
  0 ≤ s.currsample ∧ s.currsample ≤ (s.inf.n : ℤ)

/-- Sample metadata: GBT/spigot, `dt = 1 s`, 10 bins, epoch present. -/
def infGBT : InfData :=
  { dt := 1, n := 10, epoch := some 50000, telescope := "GBT",
    instrument := "spigot", lofreq := 1400, chan_width := 25/32,
    bw := 800, dm := 10, tepoch := 0 }

/-- Sample metadata without an epoch. -/
def infNoEpoch : InfData := { infGBT with epoch := none }

/-- Ten sample values. -/
def dataTen : List ℚ := [1, 2, 3, 4, 5, 6, 7, 8, 9, 10]

/-- A freshly opened reader over `infGBT` and `dataTen`. -/
def dfix : Datfile := mkDatfile infGBT dataTen

/-- A five-sample reader used for the pulse-iteration examples. -/
def dfive : Datfile := mkDatfile { infGBT with n := 5 } [1, 2, 3, 4, 5]

/-! ### Helper lemmas -/

theorem dunder_read_eq_none (s : Datfile) (n : ℤ)
    (h : s.currsample + n > (s.inf.n : ℤ)) : dunder_read s n = (none, s) := by
  simp only [dunder_read]
  rw [if_pos h]

theorem dunder_read_of_le (s : Datfile) (n : ℕ)
    (h : s.currsample + n ≤ (s.inf.n : ℤ)) :
    dunder_read s (n : ℤ) =
      (some ((s.data.drop s.filepos).take n),
       { s with
          currsample := s.currsample + n
          currmjd_actual :=
            if s.inf.epoch.isSome then
              s.currmjd_actual + s.inf.dt * n / 86400
            else s.currmjd_actual
          currtime_actual := s.currtime_actual + s.inf.dt * n
          filepos := s.filepos + min n (s.data.length - s.filepos) }) := by
  simp only [dunder_read, fromfile]
  rw [if_neg (by omega), if_neg (by omega : ¬ (n : ℤ) < 0)]
  simp [Int.toNat_natCast]

theorem read_Nsamples_eq_none (s : Datfile) (n : ℤ)
    (h : s.currsample + n > (s.inf.n : ℤ)) : read_Nsamples s n = (none, s) := by
  simp only [read_Nsamples, dunder_read_eq_none s n h]

theorem read_Nsamples_of_le (s : Datfile) (n : ℕ)
    (h : s.currsample + n ≤ (s.inf.n : ℤ)) :
    read_Nsamples s (n : ℤ) =
      (some ((s.data.drop s.filepos).take n),
       update_desired_time
        { s with
            currsample := s.currsample + n
            currmjd_actual :=
              if s.inf.epoch.isSome then
                s.currmjd_actual + s.inf.dt * n / 86400
              else s.currmjd_actual
            currtime_actual := s.currtime_actual + s.inf.dt * n
            filepos := s.filepos + min n (s.data.length - s.filepos) }
        ((n : ℤ) * s.inf.dt)) := by
  simp only [read_Nsamples, dunder_read_of_le s n h]

theorem dunder_read_none_state (s : Datfile) (n : ℤ)
    (h : (dunder_read s n).1 = none) : (dunder_read s n).2 = s := by
  simp only [dunder_read] at h ⊢
  split at h
  · simp_all [dunder_read]
  · simp_all

theorem dunder_read_inf (s : Datfile) (n : ℤ) :
    (dunder_read s n).2.inf = s.inf := by
  simp only [dunder_read]; split <;> simp

theorem dunder_read_data (s : Datfile) (n : ℤ) :
    (dunder_read s n).2.data = s.data := by
  simp only [dunder_read]; split <;> simp

theorem dunder_read_desired (s : Datfile) (n : ℤ) :
    (dunder_read s n).2.currtime_desired = s.currtime_desired := by
  simp only [dunder_read]; split <;> simp

theorem dunder_read_mjd_desired (s : Datfile) (n : ℤ) :
    (dunder_read s n).2.currmjd_desired = s.currmjd_desired := by
  simp only [dunder_read]; split <;> simp

theorem npround_zero : npround 0 = 0 := by norm_num [npround]

theorem npround_mono {x y : ℚ} (h : x ≤ y) : npround x ≤ npround y := by
  simp only [npround]
  have hf : ⌊x⌋ ≤ ⌊y⌋ := Int.floor_le_floor h
  rcases eq_or_lt_of_le hf with heq | hlt
  · have hfx : (⌊x⌋ : ℚ) = (⌊y⌋ : ℚ) := by rw [heq]
    have hr : x - ⌊y⌋ ≤ y - ⌊y⌋ := by rw [← hfx]; linarith
    rw [heq]
    split_ifs <;> first | omega | linarith
  · split_ifs <;> omega

theorem npround_nonneg {x : ℚ} (h : 0 ≤ x) : 0 ≤ npround x := by
  have := npround_mono h
  rwa [npround_zero] at this

theorem dunder_read_inv (s : Datfile) (n : ℤ) (hs : SampleInv s)
    (h0 : 0 ≤ s.currsample + n) : SampleInv (dunder_read s n).2 := by
  rcases hs with ⟨h1, h2⟩
  simp only [dunder_read, fromfile]
  split_ifs with hg
  · exact ⟨h1, h2⟩
  all_goals refine ⟨?_, ?_⟩ <;> simp <;> omega

theorem update_desired_time_currsample (s : Datfile) (t : ℚ) :
    (update_desired_time s t).currsample = s.currsample := rfl

theorem update_desired_time_inf (s : Datfile) (t : ℚ) :
    (update_desired_time s t).inf = s.inf := rfl

theorem read_Nsamples_inv (s : Datfile) (n : ℤ) (hs : SampleInv s)
    (h0 : 0 ≤ s.currsample + n) : SampleInv (read_Nsamples s n).2 := by
  have := dunder_read_inv s n hs h0
  simp only [read_Nsamples]
  cases h : (dunder_read s n).1 <;>
    simp_all [SampleInv, update_desired_time]

theorem read_Tseconds_none_state (s : Datfile) (t : ℚ)
    (h : (read_Tseconds s t).1 = none) : (read_Tseconds s t).2 = s := by
  simp only [read_Tseconds] at h ⊢
  cases h2 : (dunder_read s
      (npround ((s.currtime_desired + t) / s.inf.dt) - s.currsample)).1 with
  | none => simp only [h2]; exact dunder_read_none_state _ _ h2
  | some d => simp [h2] at h

theorem read_Tseconds_inv (s : Datfile) (t : ℚ) (hs : SampleInv s)
    (h0 : 0 ≤ npround ((s.currtime_desired + t) / s.inf.dt)) :
    SampleInv (read_Tseconds s t).2 := by
  have hd := dunder_read_inv s
    (npround ((s.currtime_desired + t) / s.inf.dt) - s.currsample) hs
    (by omega)
  simp only [read_Tseconds]
  cases h : (dunder_read s
      (npround ((s.currtime_desired + t) / s.inf.dt) - s.currsample)).1 <;>
    simp_all [SampleInv, update_desired_time]

theorem read_Tseconds_inf (s : Datfile) (t : ℚ) :
    (read_Tseconds s t).2.inf = s.inf := by
  simp only [read_Tseconds]
  cases h : (dunder_read s
      (npround ((s.currtime_desired + t) / s.inf.dt) - s.currsample)).1 <;>
    simp_all [update_desired_time, dunder_read_inf]

theorem read_Tseconds_desired_nonneg (s : Datfile) (t : ℚ) (ht : 0 ≤ t)
    (hd : 0 ≤ s.currtime_desired) :
    0 ≤ (read_Tseconds s t).2.currtime_desired := by
  simp only [read_Tseconds]
  cases h : (dunder_read s
      (npround ((s.currtime_desired + t) / s.inf.dt) - s.currsample)).1 with
  | none =>
    have := dunder_read_none_state _ _ h
    simp_all
  | some d =>
    have := dunder_read_desired s
      (npround ((s.currtime_desired + t) / s.inf.dt) - s.currsample)
    simp_all [update_desired_time]
    linarith

theorem pulses_aux_inv (f : ℚ → ℚ) (hf : ∀ m, 0 ≤ f m) :
    ∀ (fuel : ℕ) (s : Datfile) (num : ℕ), 0 < s.inf.dt → SampleInv s →
      0 ≤ s.currtime_desired → SampleInv (pulses_aux f fuel s num).2 := by
  intro fuel
  induction fuel with
  | zero => intro s num _ hs _; exact hs
  | succ fuel ih =>
    intro s num hdt hs hd
    simp only [pulses_aux]
    cases h : (read_Tseconds s (f s.currmjd_actual)).1 with
    | none =>
      simp only [h]
      rw [read_Tseconds_none_state s _ h]
      exact hs
    | some prof =>
      simp only [h]
      have harg : 0 ≤ npround ((s.currtime_desired + f s.currmjd_actual) / s.inf.dt) :=
        npround_nonneg (div_nonneg (by linarith [hf s.currmjd_actual]) (le_of_lt hdt))
      exact ih _ (num + 1)
        (by rw [read_Tseconds_inf]; exact hdt)
        (read_Tseconds_inv s _ hs harg)
        (read_Tseconds_desired_nonneg s _ (hf _) hd)

theorem baseline_loop_inv (span : ℚ) (hsp : 0 ≤ span) :
    ∀ (fuel : ℕ) (s : Datfile), 0 < s.inf.dt → SampleInv s →
      0 ≤ s.currtime_desired → SampleInv (baseline_loop span fuel s) := by
  intro fuel
  induction fuel with
  | zero => intro s _ hs _; exact hs
  | succ fuel ih =>
    intro s hdt hs hd
    simp only [baseline_loop]
    cases h : (read_Tseconds s span).1 with
    | none =>
      simp only [h]
      rw [read_Tseconds_none_state s _ h]
      exact hs
    | some prof =>
      simp only [h]
      have harg : 0 ≤ npround ((s.currtime_desired + span) / s.inf.dt) :=
        npround_nonneg (div_nonneg (by linarith) (le_of_lt hdt))
      exact ih _
        (by rw [read_Tseconds_inf]; exact hdt)
        (read_Tseconds_inv s _ hs harg)
        (read_Tseconds_desired_nonneg s _ hsp hd)

theorem rewind_inv (s : Datfile) : SampleInv (rewind s) := by
  constructor <;> simp [rewind, SampleInv]

theorem dunder_read_of_le_int (s : Datfile) (n : ℤ) (h0 : 0 ≤ n)
    (h : s.currsample + n ≤ (s.inf.n : ℤ)) :
    dunder_read s n =
      (some ((s.data.drop s.filepos).take n.toNat),
       { s with
          currsample := s.currsample + n
          currmjd_actual :=
            if s.inf.epoch.isSome then
              s.currmjd_actual + s.inf.dt * n / 86400
            else s.currmjd_actual
          currtime_actual := s.currtime_actual + s.inf.dt * n
          filepos := s.filepos + min n.toNat (s.data.length - s.filepos) }) := by
  simp only [dunder_read, fromfile]
  rw [if_neg (by omega), if_neg (by omega : ¬ n < 0)]

theorem read_Tseconds_const_step (s : Datfile) (P dt : ℚ) (N : ℕ) (k : ℕ)
    (hdt0 : 0 < dt) (hP : 0 ≤ P)
    (hinf : s.inf.dt = dt) (hN : s.inf.n = N) (hdata : s.data.length = N)
    (hdes : s.currtime_desired = (k : ℚ) * P)
    (hcur : s.currsample = npround ((k : ℚ) * P / dt))
    (hfp : s.filepos = (npround ((k : ℚ) * P / dt)).toNat)
    (h0 : 0 ≤ npround ((k : ℚ) * P / dt)) :
    (npround (((k + 1 : ℕ) : ℚ) * P / dt) ≤ (N : ℤ) →
      ∃ prof s2, read_Tseconds s P = (some prof, s2) ∧
        prof.length = (npround (((k + 1 : ℕ) : ℚ) * P / dt)
          - npround ((k : ℚ) * P / dt)).toNat ∧
        s2.inf = s.inf ∧ s2.data = s.data ∧
        s2.currtime_desired = ((k + 1 : ℕ) : ℚ) * P ∧
        s2.currsample = npround (((k + 1 : ℕ) : ℚ) * P / dt) ∧
        s2.filepos = (npround (((k + 1 : ℕ) : ℚ) * P / dt)).toNat) ∧
    ((N : ℤ) < npround (((k + 1 : ℕ) : ℚ) * P / dt) →
      read_Tseconds s P = (none, s)) := by
  have harg : (s.currtime_desired + P) / s.inf.dt = ((k + 1 : ℕ) : ℚ) * P / dt := by
    rw [hdes, hinf]
    push_cast
    ring_nf
  have hmono : npround ((k : ℚ) * P / dt) ≤ npround (((k + 1 : ℕ) : ℚ) * P / dt) := by
    apply npround_mono
    apply (div_le_div_iff_of_pos_right hdt0).mpr
    push_cast
    nlinarith [hP]
  constructor
  · intro hend
    have hok : s.currsample
        + (npround (((k + 1 : ℕ) : ℚ) * P / dt) - npround ((k : ℚ) * P / dt))
        ≤ (s.inf.n : ℤ) := by
      rw [hcur, hN]; omega
    simp only [read_Tseconds, harg, hcur]
    rw [dunder_read_of_le_int s _ (by omega) hok]
    refine ⟨_, _, rfl, ?_, ?_, ?_, ?_, ?_, ?_⟩
    · simp only [List.length_take, List.length_drop, hfp, hdata]
      have h1 : npround (((k + 1 : ℕ) : ℚ) * P / dt) ≤ (N : ℤ) := hend
      omega
    · rfl
    · rfl
    · simp only [update_desired_time, hdes]
      push_cast
      ring
    · simp only [update_desired_time]
      omega
    · simp only [update_desired_time]
      rw [hfp, hdata]
      have h1 : npround (((k + 1 : ℕ) : ℚ) * P / dt) ≤ (N : ℤ) := hend
      omega
  · intro hend
    have hko : s.currsample
        + (npround (((k + 1 : ℕ) : ℚ) * P / dt) - npround ((k : ℚ) * P / dt))
        > (s.inf.n : ℤ) := by
      rw [hcur, hN]; omega
    simp only [read_Tseconds, harg, hcur]
    rw [dunder_read_eq_none s _ hko]


theorem npround_index_mono (P dt : ℚ) (hdt0 : 0 < dt) (hP : 0 ≤ P)
    {a b : ℕ} (h : a ≤ b) :
    npround ((a : ℚ) * P / dt) ≤ npround ((b : ℚ) * P / dt) := by
  apply npround_mono
  apply (div_le_div_iff_of_pos_right hdt0).mpr
  have hab : (a : ℚ) ≤ (b : ℚ) := by exact_mod_cast h
  nlinarith [hP]

theorem pulses_aux_const_spec (P dt : ℚ) (N : ℕ) (hdt0 : 0 < dt)
    (hP : 0 ≤ P) :
    ∀ (fuel k : ℕ) (s : Datfile),
      s.inf.dt = dt → s.inf.n = N → s.data.length = N →
      s.currtime_desired = (k : ℚ) * P →
      s.currsample = npround ((k : ℚ) * P / dt) →
      s.filepos = (npround ((k : ℚ) * P / dt)).toNat →
      0 ≤ npround ((k : ℚ) * P / dt) →
      npround ((k : ℚ) * P / dt) ≤ (N : ℤ) →
      (N : ℤ) < npround (((k + fuel : ℕ) : ℚ) * P / dt) →
      npround (((k + (pulses_aux (fun _ => P) fuel s (k + 1)).1.length : ℕ) : ℚ)
          * P / dt) ≤ (N : ℤ) ∧
      (N : ℤ) < npround (((k + (pulses_aux (fun _ => P) fuel s (k + 1)).1.length
          + 1 : ℕ) : ℚ) * P / dt) ∧
      (∀ j, ∀ hj : j < (pulses_aux (fun _ => P) fuel s (k + 1)).1.length,
        ((pulses_aux (fun _ => P) fuel s (k + 1)).1.get ⟨j, hj⟩).number
          = k + 1 + j ∧
        ((pulses_aux (fun _ => P) fuel s (k + 1)).1.get ⟨j, hj⟩).profile.length
          = (npround (((k + j + 1 : ℕ) : ℚ) * P / dt)
            - npround (((k + j : ℕ) : ℚ) * P / dt)).toNat) := by
  intro fuel
  induction fuel with
  | zero =>
    intro k s _ _ _ _ _ _ _ hle hfuel
    simp only [Nat.add_zero] at hfuel
    omega
  | succ fuel ih =>
    intro k s hinf hN hdata hdes hcur hfp h0 hle hfuel
    obtain ⟨hstep_ok, hstep_none⟩ := read_Tseconds_const_step s P dt N k
      hdt0 hP hinf hN hdata hdes hcur hfp h0
    by_cases hend : npround (((k + 1 : ℕ) : ℚ) * P / dt) ≤ (N : ℤ)
    · obtain ⟨prof, s2, hread, hplen, hsinf, hsdata, hsdes, hscur, hsfp⟩ :=
        hstep_ok hend
      have hunfold : pulses_aux (fun _ => P) (fuel + 1) s (k + 1)
          = (({ number := k + 1, mjd := s.currmjd_actual,
                time := s.currtime_actual, duration := P, profile := prof,
                dt := s.inf.dt, dm := s.inf.dm,
                telescope := s.inf.telescope, lofreq := s.inf.lofreq,
                chan_width := s.inf.chan_width, bw := s.inf.bw } : Pulse)
              :: (pulses_aux (fun _ => P) fuel s2 (k + 2)).1,
             (pulses_aux (fun _ => P) fuel s2 (k + 2)).2) := by
        simp only [pulses_aux, hread]
      have h0n : 0 ≤ npround (((k + 1 : ℕ) : ℚ) * P / dt) :=
        le_trans h0 (npround_index_mono P dt hdt0 hP (by omega))
      have hfuel2 : (N : ℤ) < npround ((((k + 1) + fuel : ℕ) : ℚ) * P / dt) := by
        have he : ((k + 1) + fuel : ℕ) = (k + (fuel + 1) : ℕ) := by omega
        rw [he]
        exact hfuel
      obtain ⟨ha, hb, hc⟩ := ih (k + 1) s2
        (by rw [hsinf]; exact hinf) (by rw [hsinf]; exact hN)
        (by rw [hsdata]; exact hdata) hsdes hscur hsfp h0n hend hfuel2
      refine ⟨?_, ?_, ?_⟩
      · rw [hunfold]
        simp only [List.length_cons]
        have he : (k + ((pulses_aux (fun _ => P) fuel s2 (k + 2)).1.length + 1) : ℕ)
            = ((k + 1) + (pulses_aux (fun _ => P) fuel s2 (k + 2)).1.length : ℕ) := by
          omega
        rw [he]
        exact ha
      · rw [hunfold]
        simp only [List.length_cons]
        have he : (k + ((pulses_aux (fun _ => P) fuel s2 (k + 2)).1.length + 1)
              + 1 : ℕ)
            = ((k + 1) + (pulses_aux (fun _ => P) fuel s2 (k + 2)).1.length
              + 1 : ℕ) := by
          omega
        rw [he]
        exact hb
      · rw [hunfold]
        intro j hj
        simp only [List.length_cons] at hj
        cases j with
        | zero =>
          constructor
          · simp
          · simp only [List.get]
            have e1 : (k + 0 + 1 : ℕ) = (k + 1 : ℕ) := by omega
            have e2 : (k + 0 : ℕ) = (k : ℕ) := by omega
            rw [e1, e2]
            exact hplen
        | succ j =>
          have hj2 : j < (pulses_aux (fun _ => P) fuel s2 (k + 2)).1.length := by
            omega
          obtain ⟨hn1, hn2⟩ := hc j hj2
          constructor
          · simp only [List.get]
            rw [hn1]
            omega
          · simp only [List.get]
            have e1 : (k + (j + 1) + 1 : ℕ) = ((k + 1) + j + 1 : ℕ) := by omega
            have e2 : (k + (j + 1) : ℕ) = ((k + 1) + j : ℕ) := by omega
            rw [e1, e2]
            exact hn2
    · push_neg at hend
      have hread := hstep_none hend
      have hunfold : pulses_aux (fun _ => P) (fuel + 1) s (k + 1) = ([], s) := by
        simp only [pulses_aux, hread]
      rw [hunfold]
      refine ⟨?_, ?_, ?_⟩
      · simpa using hle
      · simpa using hend
      · intro j hj
        simp at hj

/-! ### Claim theorems -/

/-- C1: for every reader state and requested count `n`, if fewer than `n`
samples remain before end-of-file (`currsample + n > N`),
`read_Nsamples n` returns `none` and leaves the entire reader state
unchanged; otherwise it returns a block of exactly `n` samples, advances
the sample index by `n`, and advances both the actual and the desired
time/MJD clocks by `n * dt` (MJD clocks when an epoch exists). -/
theorem C1_read_Nsamples_spec (s : Datfile) (n : ℕ)
    (hfp : s.filepos = s.currsample.toNat)
    (hc : 0 ≤ s.currsample)
    (hlen : s.data.length = s.inf.n) :
    (s.currsample + n > (s.inf.n : ℤ) → read_Nsamples s (n : ℤ) = (none, s)) ∧
    (s.currsample + n ≤ (s.inf.n : ℤ) →
      (∃ d, (read_Nsamples s (n : ℤ)).1 = some d ∧ d.length = n) ∧
      (read_Nsamples s (n : ℤ)).2.currsample = s.currsample + n ∧
      (read_Nsamples s (n : ℤ)).2.currtime_actual
        = s.currtime_actual + n * s.inf.dt ∧
      (read_Nsamples s (n : ℤ)).2.currtime_desired
        = s.currtime_desired + n * s.inf.dt ∧
      (s.inf.epoch.isSome →
        (read_Nsamples s (n : ℤ)).2.currmjd_actual
          = s.currmjd_actual + n * s.inf.dt / 86400 ∧
        (read_Nsamples s (n : ℤ)).2.currmjd_desired
          = s.currmjd_desired + n * s.inf.dt / 86400)) := by
  refine ⟨fun h => read_Nsamples_eq_none s n h, fun h => ?_⟩
  rw [read_Nsamples_of_le s n h]
  simp only [update_desired_time]
  refine ⟨?_, ?_, ?_, ?_, ?_⟩
  · refine ⟨List.take n (List.drop s.filepos s.data), rfl, ?_⟩
    simp only [List.length_take, List.length_drop]
    omega
  · simp
  · simp; ring
  · simp
  · intro hep
    simp only [hep, if_true]
    exact ⟨by ring, by push_cast; ring⟩

/-- C1 witness: on a fresh ten-sample reader, reading 3 samples succeeds
with a block of length 3, and reading 11 samples returns the sentinel
with the state unchanged. -/
theorem C1_read_Nsamples_spec_witness :
    (∃ d, (read_Nsamples dfix ((3 : ℕ) : ℤ)).1 = some d ∧ d.length = 3) ∧
    read_Nsamples dfix ((11 : ℕ) : ℤ) = (none, dfix) := by
  have h1 := (C1_read_Nsamples_spec dfix 3 rfl (by norm_num [dfix, mkDatfile, rewind])
      (by norm_num [dfix, mkDatfile, rewind, infGBT, dataTen])).2
    (by norm_num [dfix, mkDatfile, rewind, infGBT])
  have h2 := (C1_read_Nsamples_spec dfix 11 rfl (by norm_num [dfix, mkDatfile, rewind])
      (by norm_num [dfix, mkDatfile, rewind, infGBT, dataTen])).1
    (by norm_num [dfix, mkDatfile, rewind, infGBT])
  exact ⟨h1.1, h2⟩

/-- C2: `read_Tseconds T` computes the sample count as
`round((currtime_desired + T)/dt) - currsample`, delegates that count to
the primitive `__read`, and exactly when the read succeeds advances the
desired time by exactly `T` (and the desired MJD by `T/86400` when an
epoch exists); when the read returns the sentinel, the state (in
particular desired time) is unchanged. -/
theorem C2_read_Tseconds_spec (s : Datfile) (t : ℚ) :
    ((read_Tseconds s t).1 =
      (dunder_read s
        (npround ((s.currtime_desired + t) / s.inf.dt) - s.currsample)).1) ∧
    ((read_Tseconds s t).1.isSome →
      (read_Tseconds s t).2 =
        update_desired_time
          (dunder_read s
            (npround ((s.currtime_desired + t) / s.inf.dt) - s.currsample)).2
          t ∧
      (read_Tseconds s t).2.currtime_desired = s.currtime_desired + t ∧
      (s.inf.epoch.isSome →
        (read_Tseconds s t).2.currmjd_desired
          = s.currmjd_desired + t / 86400)) ∧
    ((read_Tseconds s t).1 = none → (read_Tseconds s t).2 = s) := by
  cases h : (dunder_read s
      (npround ((s.currtime_desired + t) / s.inf.dt) - s.currsample)).1 with
  | none =>
    have h2 := dunder_read_none_state _ _ h
    refine ⟨?_, ?_, ?_⟩
    · simp [read_Tseconds, h]
    · simp [read_Tseconds, h]
    · intro _
      simp only [read_Tseconds, h]
      exact h2
  | some d =>
    refine ⟨?_, ?_, ?_⟩
    · simp [read_Tseconds, h]
    · intro _
      refine ⟨by simp [read_Tseconds, h], ?_, fun hep => ?_⟩
      · simp [read_Tseconds, h, update_desired_time, dunder_read_desired]
      · simp [read_Tseconds, h, update_desired_time, dunder_read_mjd_desired,
          dunder_read_inf, hep]
    · intro hn
      simp [read_Tseconds, h] at hn

/-- C2 witness: on a fresh ten-sample reader requesting 2.6 seconds, the
delegation equation and the desired-clock advance hold. -/
theorem C2_read_Tseconds_spec_witness :
    ((read_Tseconds dfix (13/5)).1 =
      (dunder_read dfix
        (npround ((dfix.currtime_desired + 13/5) / dfix.inf.dt)
          - dfix.currsample)).1) ∧
    ((read_Tseconds dfix (13/5)).1.isSome →
      (read_Tseconds dfix (13/5)).2 =
        update_desired_time
          (dunder_read dfix
            (npround ((dfix.currtime_desired + 13/5) / dfix.inf.dt)
              - dfix.currsample)).2
          (13/5) ∧
      (read_Tseconds dfix (13/5)).2.currtime_desired
        = dfix.currtime_desired + 13/5 ∧
      (dfix.inf.epoch.isSome →
        (read_Tseconds dfix (13/5)).2.currmjd_desired
          = dfix.currmjd_desired + (13/5) / 86400)) ∧
    ((read_Tseconds dfix (13/5)).1 = none →
      (read_Tseconds dfix (13/5)).2 = dfix) :=
  C2_read_Tseconds_spec dfix (13/5)

/-- C5: from any in-range position, reading `n` samples and then the
remaining `r - n` samples yields two blocks whose concatenation is the
single block obtained by reading all `r` remaining samples from the
original position. -/
theorem C5_read_split (s : Datfile) (n : ℕ)
    (hfp : s.filepos = s.currsample.toNat)
    (hc : 0 ≤ s.currsample)
    (hlen : s.data.length = s.inf.n)
    (hn : (n : ℤ) ≤ (s.inf.n : ℤ) - s.currsample) :
    ∃ d1 d2 d,
      (read_Nsamples s (n : ℤ)).1 = some d1 ∧
      (read_Nsamples (read_Nsamples s (n : ℤ)).2
        ((((s.inf.n : ℤ) - s.currsample).toNat - n : ℕ) : ℤ)).1 = some d2 ∧
      (read_Nsamples s ((((s.inf.n : ℤ) - s.currsample).toNat : ℕ) : ℤ)).1
        = some d ∧
      d1 ++ d2 = d := by
  set r : ℕ := ((s.inf.n : ℤ) - s.currsample).toNat with hr
  have hrn : (r : ℤ) = (s.inf.n : ℤ) - s.currsample := by omega
  have hle1 : s.currsample + (n : ℤ) ≤ (s.inf.n : ℤ) := by omega
  have hler : s.currsample + (r : ℤ) ≤ (s.inf.n : ℤ) := by omega
  rw [read_Nsamples_of_le s n hle1, read_Nsamples_of_le s r hler]
  have hmin : min n (s.data.length - s.filepos) = n := by omega
  have hminr : min r (s.data.length - s.filepos) = r := by omega
  simp only [hmin, hminr, update_desired_time]
  rw [read_Nsamples_of_le _ (r - n) (by simp; omega)]
  refine ⟨_, _, _, rfl, rfl, rfl, ?_⟩
  have hsplit : r = n + (r - n) := by omega
  conv_rhs => rw [hsplit, List.take_add]
  congr 1
  rw [List.drop_drop, Nat.add_comm]

/-- C5 witness: on a fresh ten-sample reader, reading 4 then 6 samples
concatenates to the single 10-sample read. -/
theorem C5_read_split_witness :
    ∃ d1 d2 d,
      (read_Nsamples dfix ((4 : ℕ) : ℤ)).1 = some d1 ∧
      (read_Nsamples (read_Nsamples dfix ((4 : ℕ) : ℤ)).2
        ((((dfix.inf.n : ℤ) - dfix.currsample).toNat - 4 : ℕ) : ℤ)).1
        = some d2 ∧
      (read_Nsamples dfix
        ((((dfix.inf.n : ℤ) - dfix.currsample).toNat : ℕ) : ℤ)).1 = some d ∧
      d1 ++ d2 = d :=
  C5_read_split dfix 4 rfl (by norm_num [dfix, mkDatfile, rewind])
    (by norm_num [dfix, mkDatfile, rewind, infGBT, dataTen])
    (by norm_num [dfix, mkDatfile, rewind, infGBT])

/-- C10: when `round((currtime_desired + T)/dt)` equals the current
sample index and the position is not past end-of-file, `read_Tseconds T`
with `T > 0` succeeds with an empty block (not the sentinel), advances
the desired clocks by exactly `T`, and leaves the sample index, file
position, and the actual time/MJD unchanged. -/
theorem C10_read_Tseconds_empty (s : Datfile) (t : ℚ)
    (ht : 0 < t)
    (hcurr : s.currsample ≤ (s.inf.n : ℤ))
    (hround : npround ((s.currtime_desired + t) / s.inf.dt) = s.currsample) :
    (read_Tseconds s t).1 = some [] ∧
    (read_Tseconds s t).2.currsample = s.currsample ∧
    (read_Tseconds s t).2.currtime_actual = s.currtime_actual ∧
    (read_Tseconds s t).2.currmjd_actual = s.currmjd_actual ∧
    (read_Tseconds s t).2.filepos = s.filepos ∧
    (read_Tseconds s t).2.currtime_desired = s.currtime_desired + t ∧
    (s.inf.epoch.isSome →
      (read_Tseconds s t).2.currmjd_desired = s.currmjd_desired + t / 86400) := by
  have hnum : npround ((s.currtime_desired + t) / s.inf.dt) - s.currsample = 0 := by
    rw [hround]; ring
  simp only [read_Tseconds, hnum, dunder_read, fromfile]
  rw [if_neg (by omega : ¬ s.currsample + 0 > (s.inf.n : ℤ)),
      if_neg (by omega : ¬ (0 : ℤ) < 0)]
  simp [update_desired_time]
  intro h1 h2
  rw [h2] at h1
  simp at h1

/-- C7 (amended): for every path that does not end with `.dat`,
construction fails — via Python 3's `TypeError` from raising a plain
string, not via a typed `FormatError` — and for every path ending with
`.dat`, construction succeeds on loadable files (in particular no
`FormatError` is raised). -/
theorem C7_init_extension_spec (datfn : String) (inf : InfData)
    (data : List ℚ) :
    (pyEndsWith datfn ".dat" = false →
      datfile_init datfn inf data = .error .typeError ∧
      datfile_init datfn inf data ≠ .error .formatError) ∧
    (pyEndsWith datfn ".dat" = true →
      datfile_init datfn inf data
        = .ok (mkDatfile (correct_infdata inf) data)) := by
  constructor
  · intro h
    constructor <;> simp [datfile_init, h]
  · intro h
    simp [datfile_init, h]

/-- C7 counterexample: constructing a reader on `timeseries.txt` raises
the string-raise `TypeError`, not the typed `FormatError` the claim
names. -/
theorem C7_init_extension_counterexample :
    datfile_init "timeseries.txt" infGBT dataTen = .error .typeError ∧
    datfile_init "timeseries.txt" infGBT dataTen ≠ .error .formatError := by
  have h : pyEndsWith "timeseries.txt" ".dat" = false := rfl
  exact (C7_init_extension_spec "timeseries.txt" infGBT dataTen).1 h

/-- C7 witness: a `.txt` path fails with `TypeError` (not `FormatError`)
and a `.dat` path constructs the reader. -/
theorem C7_init_extension_spec_witness :
    (datfile_init "timeseries2.txt" infGBT dataTen = .error .typeError ∧
      datfile_init "timeseries2.txt" infGBT dataTen ≠ .error .formatError) ∧
    datfile_init "timeseries2.dat" infGBT dataTen
      = .ok (mkDatfile (correct_infdata infGBT) dataTen) :=
  ⟨(C7_init_extension_spec "timeseries2.txt" infGBT dataTen).1 rfl,
   (C7_init_extension_spec "timeseries2.dat" infGBT dataTen).2 rfl⟩

/-- C8: `pulses` on a reader whose metadata carries no epoch fails with
`NotImplementedError` (the spec's `UnsupportedOperationError`) before
any reset, skip or read — the reader state is returned unchanged — and
on a reader with an epoch the call never produces an error. -/
theorem C8_pulses_no_epoch_spec (s : Datfile) (f : ℚ → ℚ) (skip : ℚ)
    (fuel : ℕ) :
    (s.inf.epoch = none →
      pulses s f skip fuel = (.error .notImplementedError, s)) ∧
    (s.inf.epoch.isSome → ∃ ps, (pulses s f skip fuel).1 = .ok ps) := by
  constructor
  · intro h
    simp [pulses, h]
  · intro h
    rcases Option.isSome_iff_exists.mp h with ⟨e, he⟩
    simp [pulses, he]

/-- C8 witness: an epoch-less reader gets `NotImplementedError` with its
state untouched; an epoch-carrying reader iterates without error. -/
theorem C8_pulses_no_epoch_spec_witness :
    pulses (mkDatfile infNoEpoch dataTen) (fun _ => 1) 0 3
      = (.error .notImplementedError, mkDatfile infNoEpoch dataTen) ∧
    ∃ ps, (pulses dfix (fun _ => 1) 0 12).1 = .ok ps :=
  ⟨(C8_pulses_no_epoch_spec (mkDatfile infNoEpoch dataTen)
      (fun _ => 1) 0 3).1 rfl,
   (C8_pulses_no_epoch_spec dfix (fun _ => 1) 0 12).2 rfl⟩

/-- C9 (amended): the GBT/spigot load-time correction additionally
requires `fmod(dt, 8.192e-05) < 1e-12`; under that condition a record
with telescope GBT, instrument spigot, channel width 800/1024 and epoch
50000 gets `lofreq` decremented by half a channel width and the epoch
incremented by `0.039365/86400` days, with no other field modified. -/
theorem C9_correct_infdata_spigot (inf : InfData)
    (htel : inf.telescope = "GBT")
    (hinst : inf.instrument = "spigot")
    (hcw : inf.chan_width = 800/1024)
    (hep : inf.epoch = some 50000)
    (hdt : qfmod inf.dt (8192/100000000) < 1/1000000000000) :
    correct_infdata inf =
      { inf with
          lofreq := inf.lofreq - 1/2 * inf.chan_width
          epoch := some (50000 + (39365/1000000) / 86400) } := by
  simp only [correct_infdata, htel, hinst, hcw, hep]
  rw [if_pos trivial]
  rw [if_pos ⟨hdt, Or.inl (show inLower "spigot" "spigot" = true from rfl)⟩]
  rw [if_pos trivial]
  rw [if_pos (by norm_num : ((some (50000 : ℚ)).getD 0 > 0))]
  simp

/-- C9 counterexample: with `dt = 0.001 s` (not a multiple of
8.192e-05 s) the record satisfies every condition the claim names, yet
`correct_infdata` leaves `lofreq` unchanged instead of decrementing it. -/
theorem C9_correct_infdata_counterexample :
    ({ infGBT with dt := 1/1000 } : InfData).telescope = "GBT" ∧
    ({ infGBT with dt := 1/1000 } : InfData).instrument = "spigot" ∧
    ({ infGBT with dt := 1/1000 } : InfData).chan_width = 800/1024 ∧
    ({ infGBT with dt := 1/1000 } : InfData).epoch = some 50000 ∧
    (correct_infdata { infGBT with dt := 1/1000 }).lofreq
      = ({ infGBT with dt := 1/1000 } : InfData).lofreq ∧
    (correct_infdata { infGBT with dt := 1/1000 }).lofreq
      ≠ ({ infGBT with dt := 1/1000 } : InfData).lofreq
        - 1/2 * ({ infGBT with dt := 1/1000 } : InfData).chan_width := by
  refine ⟨rfl, rfl, by norm_num [infGBT], rfl, ?_, ?_⟩ <;>
    norm_num [correct_infdata, infGBT, qfmod]

/-- C9 witness: with `dt = 8.192e-05 s` exactly, the correction applies
as the amended claim states. -/
theorem C9_correct_infdata_spigot_witness :
    correct_infdata { infGBT with dt := 8192/100000000 }
      = { ({ infGBT with dt := 8192/100000000 } : InfData) with
          lofreq := ({ infGBT with dt := 8192/100000000 } : InfData).lofreq
            - 1/2 * ({ infGBT with dt := 8192/100000000 } : InfData).chan_width
          epoch := some (50000 + (39365/1000000) / 86400) } :=
  C9_correct_infdata_spigot { infGBT with dt := 8192/100000000 }
    rfl rfl (by norm_num [infGBT]) rfl
    (by norm_num [infGBT, qfmod])

theorem seek_to_spec (s : Datfile) (t : ℚ) (e : ℚ)
    (h0 : 0 ≤ npround (t / s.inf.dt)) (hep : s.inf.epoch = some e) :
    ∃ s2, seek_to s t = .ok (npround (t / s.inf.dt), s2) ∧
      s2.currtime_desired = t ∧
      s2.currmjd_desired = e + t / 86400 ∧
      s2.currtime_actual = s.inf.dt * npround (t / s.inf.dt) ∧
      s2.currsample = npround (t / s.inf.dt) ∧
      s2.filepos = (npround (t / s.inf.dt)).toNat ∧
      s2.currmjd_actual = s.inf.dt * npround (t / s.inf.dt) / 86400 := by
  simp only [seek_to, rewind, dunder_seek, hep, zero_add, sub_zero]
  rw [if_neg (by omega)]
  simp [Except.map, hep]

/-- C3 (code bug): `seek_to(2)` on a fresh reader with `dt = 1 s` and
epoch 50000 returns 2 skipped samples, sets the desired time/MJD and the
actual time as the claim states, but sets the actual MJD to `2/86400` —
`__seek` overwrites `currmjd_actual` with `dt*N/86400`, dropping the
epoch that `rewind` and `__read` anchor it to — instead of the claimed
`epoch + 2/86400`. -/
theorem C3_seek_to_eval :
    ∃ s, seek_to dfix 2 = .ok (2, s) ∧
      s.currtime_desired = 2 ∧
      s.currmjd_desired = 50000 + 2/86400 ∧
      s.currtime_actual = 2 ∧
      s.currsample = 2 ∧
      s.currmjd_actual = 2/86400 ∧
      s.currmjd_actual ≠ 50000 + 2/86400 := by
  have hr : npround ((2 : ℚ) / dfix.inf.dt) = 2 := by
    norm_num [dfix, mkDatfile, rewind, infGBT, npround]
  obtain ⟨s2, h1, h2, h3, h4, h5, h6, h7⟩ :=
    seek_to_spec dfix 2 50000 (by rw [hr]; norm_num) rfl
  rw [hr] at h1 h4 h5 h7
  refine ⟨s2, h1, h2, h3, ?_, ?_, ?_, ?_⟩
  · rw [h4]; norm_num [dfix, mkDatfile, rewind, infGBT]
  · rw [h5]
  · rw [h7]; norm_num [dfix, mkDatfile, rewind, infGBT]
  · rw [h7]; norm_num [dfix, mkDatfile, rewind, infGBT]

/-- C10 witness: on a fresh ten-sample reader (dt = 1 s), requesting
0.25 s rounds to sample 0 = current index, so the read succeeds empty
and the desired clock advances by 0.25 s. -/
theorem C10_read_Tseconds_empty_witness :
    (read_Tseconds dfix (1/4)).1 = some [] ∧
    (read_Tseconds dfix (1/4)).2.currsample = dfix.currsample ∧
    (read_Tseconds dfix (1/4)).2.currtime_actual = dfix.currtime_actual ∧
    (read_Tseconds dfix (1/4)).2.currmjd_actual = dfix.currmjd_actual ∧
    (read_Tseconds dfix (1/4)).2.filepos = dfix.filepos ∧
    (read_Tseconds dfix (1/4)).2.currtime_desired
      = dfix.currtime_desired + 1/4 ∧
    (dfix.inf.epoch.isSome →
      (read_Tseconds dfix (1/4)).2.currmjd_desired
        = dfix.currmjd_desired + (1/4) / 86400) :=
  C10_read_Tseconds_empty dfix (1/4) (by norm_num)
    (by norm_num [dfix, mkDatfile, rewind, infGBT])
    (by norm_num [dfix, mkDatfile, rewind, infGBT, npround])

/-- C4 counterexample: the fresh reader satisfies the invariant, but
`read_Nsamples(-1)` — an argument value the operation accepts without
error — drives `currsample` to −1, violating
`0 <= current_sample <= total_sample_count`. -/
theorem C4_invariant_counterexample :
    SampleInv dfix ∧ ¬ SampleInv (read_Nsamples dfix (-1)).2 := by
  constructor
  · exact ⟨by norm_num [dfix, mkDatfile, rewind],
      by norm_num [dfix, mkDatfile, rewind, infGBT]⟩
  · intro hinv
    have h := hinv.1
    norm_num [read_Nsamples, dunder_read, fromfile, update_desired_time,
      dfix, mkDatfile, rewind, infGBT, dataTen, SampleInv] at h

theorem seek_to_inv (s : Datfile) (t : ℚ) (r : ℤ) (s2 : Datfile)
    (hN : npround (t / s.inf.dt) ≤ (s.inf.n : ℤ))
    (heq : seek_to s t = .ok (r, s2)) : SampleInv s2 := by
  simp only [seek_to, rewind, dunder_seek, zero_add, sub_zero] at heq
  split_ifs at heq with hneg
  · simp [Except.map] at heq
  all_goals
    simp only [Except.map, Except.ok.injEq, Prod.mk.injEq] at heq
    obtain ⟨hr, hs2⟩ := heq
    rw [← hs2]
    refine ⟨?_, ?_⟩
    · show (0 : ℤ) ≤ npround (t / s.inf.dt)
      omega
    · show npround (t / s.inf.dt) ≤ (s.inf.n : ℤ)
      exact hN

theorem pulses_inv (s : Datfile) (f : ℚ → ℚ) (skip : ℚ) (fuel : ℕ)
    (hdt : 0 < s.inf.dt) (hf : ∀ m, 0 ≤ f m) (hs : SampleInv s) :
    SampleInv (pulses s f skip fuel).2 := by
  simp only [pulses]
  split_ifs with hep hskip
  · exact hs
  · apply pulses_aux_inv f hf fuel _ 1
    · rw [read_Tseconds_inf]
      show 0 < s.inf.dt
      exact hdt
    · refine read_Tseconds_inv _ _ (rewind_inv s)
        (npround_nonneg (div_nonneg ?_ ?_))
      · show (0 : ℚ) ≤ (rewind s).currtime_desired + skip
        have h0 : (rewind s).currtime_desired = 0 := rfl
        rw [h0]; linarith
      · show (0 : ℚ) ≤ (rewind s).inf.dt
        exact le_of_lt hdt
    · refine read_Tseconds_desired_nonneg _ _ (by linarith) ?_
      show (0 : ℚ) ≤ (0 : ℚ)
      exact le_refl 0
  · apply pulses_aux_inv f hf fuel _ 1
    · exact hdt
    · exact rewind_inv s
    · show (0 : ℚ) ≤ (0 : ℚ)
      exact le_refl 0

/-- C4 (amended): the invariant `0 <= currsample <= N` holds after
construction and reset and is preserved by `read_Nsamples` with a
nonnegative count, by `read_Tseconds` whenever the computed target
sample `round((desired+T)/dt)` is nonnegative, by `read_to` for a
nonnegative target or −1, by `read_all`, by every successful `seek_to`
whose target `round(T/dt)` does not exceed `N`, by baseline estimation
with a nonnegative span, and by pulse iteration with a nonnegative
period function (with `dt > 0`); negative or past-end arguments can
violate it. -/
theorem C4_invariant_preserved (s : Datfile) (inf2 : InfData)
    (data2 : List ℚ) (hs : SampleInv s) :
    SampleInv (mkDatfile inf2 data2) ∧
    SampleInv (rewind s) ∧
    (∀ n : ℤ, 0 ≤ n → SampleInv (read_Nsamples s n).2) ∧
    (∀ t : ℚ, 0 ≤ npround ((s.currtime_desired + t) / s.inf.dt) →
      SampleInv (read_Tseconds s t).2) ∧
    (∀ m : ℤ, 0 ≤ m → SampleInv (read_to s m).2) ∧
    SampleInv (read_to s (-1)).2 ∧
    SampleInv (read_all s).2 ∧
    (∀ t : ℚ, ∀ r : ℤ, ∀ s2 : Datfile,
      npround (t / s.inf.dt) ≤ (s.inf.n : ℤ) →
      seek_to s t = .ok (r, s2) → SampleInv s2) ∧
    (∀ span : ℚ, 0 ≤ span → 0 < s.inf.dt → ∀ fuel : ℕ,
      SampleInv (get_baseline_spline_state s span fuel)) ∧
    (∀ f : ℚ → ℚ, ∀ skip : ℚ, ∀ fuel : ℕ, 0 < s.inf.dt → (∀ m, 0 ≤ f m) →
      SampleInv (pulses s f skip fuel).2) := by
  have hrw := rewind_inv s
  refine ⟨rewind_inv _, hrw, ?_, ?_, ?_, ?_, ?_, ?_, ?_, ?_⟩
  · intro n hn
    exact read_Nsamples_inv s n hs (by rcases hs with ⟨h1, _⟩; omega)
  · intro t h0
    exact read_Tseconds_inv s t hs h0
  · intro m hm
    simp only [read_to]
    rw [if_neg (by omega : ¬ m = -1)]
    exact read_Nsamples_inv s _ hs (by omega)
  · have h1 : SampleInv (read_Nsamples s ((s.inf.n : ℤ) - s.currsample)).2 :=
      read_Nsamples_inv s _ hs (by rcases hs with ⟨h1, _⟩; omega)
    simpa [read_to] using h1
  · simp only [read_all]
    refine dunder_read_inv _ _ hrw ?_
    show (0 : ℤ) ≤ (rewind s).currsample + s.inf.n
    have h0 : (rewind s).currsample = 0 := rfl
    omega
  · intro t r s2 hN heq
    exact seek_to_inv s t r s2 hN heq
  · intro span hsp hdt fuel
    refine baseline_loop_inv span hsp fuel (rewind s) ?_ hrw ?_
    · show 0 < s.inf.dt
      exact hdt
    · show (0 : ℚ) ≤ (0 : ℚ)
      exact le_refl 0
  · intro f skip fuel hdt hf
    exact pulses_inv s f skip fuel hdt hf hs

/-- C4 witness: the amended preservation statement instantiated on the
fresh ten-sample reader. -/
theorem C4_invariant_preserved_witness :
    SampleInv (mkDatfile infGBT dataTen) ∧
    SampleInv (rewind dfix) ∧
    (∀ n : ℤ, 0 ≤ n → SampleInv (read_Nsamples dfix n).2) ∧
    (∀ t : ℚ, 0 ≤ npround ((dfix.currtime_desired + t) / dfix.inf.dt) →
      SampleInv (read_Tseconds dfix t).2) ∧
    (∀ m : ℤ, 0 ≤ m → SampleInv (read_to dfix m).2) ∧
    SampleInv (read_to dfix (-1)).2 ∧
    SampleInv (read_all dfix).2 ∧
    (∀ t : ℚ, ∀ r : ℤ, ∀ s2 : Datfile,
      npround (t / dfix.inf.dt) ≤ (dfix.inf.n : ℤ) →
      seek_to dfix t = .ok (r, s2) → SampleInv s2) ∧
    (∀ span : ℚ, 0 ≤ span → 0 < dfix.inf.dt → ∀ fuel : ℕ,
      SampleInv (get_baseline_spline_state dfix span fuel)) ∧
    (∀ f : ℚ → ℚ, ∀ skip : ℚ, ∀ fuel : ℕ, 0 < dfix.inf.dt →
      (∀ m, 0 ≤ f m) → SampleInv (pulses dfix f skip fuel).2) :=
  C4_invariant_preserved dfix infGBT dataTen
    ⟨by norm_num [dfix, mkDatfile, rewind],
     by norm_num [dfix, mkDatfile, rewind, infGBT]⟩

/-- C6 (amended): over a file of `N` samples with an epoch, sample
interval `dt > 0`, and constant period `P >= 0`, `pulses` yields exactly
the largest `k` with `round(k*P/dt) <= N` pulse segments (the bounds
below characterise that `k`, since `round(k*P/dt)` is monotone in `k`);
the `i`-th segment (1-based) carries sequence number `i` and contains
exactly `round(i*P/dt) - round((i-1)*P/dt)` samples; the iteration ends
at the first "no data" sentinel.  (`fuel` bounds the modelled generator;
the hypothesis on `fuel` says the iteration terminates within it.) -/
theorem C6_pulses_const_spec (s : Datfile) (P : ℚ) (fuel : ℕ) (e : ℚ)
    (hep : s.inf.epoch = some e)
    (hdt : 0 < s.inf.dt) (hP : 0 ≤ P)
    (hlen : s.data.length = s.inf.n)
    (hfuel : (s.inf.n : ℤ) < npround ((fuel : ℚ) * P / s.inf.dt)) :
    ∃ L, (pulses s (fun _ => P) 0 fuel).1 = .ok L ∧
      npround ((L.length : ℚ) * P / s.inf.dt) ≤ (s.inf.n : ℤ) ∧
      (s.inf.n : ℤ) < npround (((L.length + 1 : ℕ) : ℚ) * P / s.inf.dt) ∧
      ∀ j, ∀ hj : j < L.length,
        (L.get ⟨j, hj⟩).number = j + 1 ∧
        (L.get ⟨j, hj⟩).profile.length =
          (npround (((j + 1 : ℕ) : ℚ) * P / s.inf.dt)
            - npround (((j : ℕ) : ℚ) * P / s.inf.dt)).toNat := by
  have hz : npround (((0 : ℕ) : ℚ) * P / s.inf.dt) = 0 := by
    norm_num [npround_zero]
  have hmain := pulses_aux_const_spec P s.inf.dt s.inf.n hdt hP fuel 0
    (rewind s) rfl rfl hlen
    (by show (0 : ℚ) = ((0 : ℕ) : ℚ) * P; norm_num)
    (by show (0 : ℤ) = npround (((0 : ℕ) : ℚ) * P / s.inf.dt); rw [hz])
    (by show (0 : ℕ) = (npround (((0 : ℕ) : ℚ) * P / s.inf.dt)).toNat
        rw [hz]; rfl)
    (by rw [hz])
    (by rw [hz]; exact_mod_cast Nat.zero_le s.inf.n)
    (by simpa using hfuel)
  obtain ⟨ha, hb, hc⟩ := hmain
  have hpul : (pulses s (fun _ => P) 0 fuel).1
      = .ok (pulses_aux (fun _ => P) fuel (rewind s) 1).1 := by
    simp [pulses, hep]
  refine ⟨(pulses_aux (fun _ => P) fuel (rewind s) 1).1, hpul, ?_, ?_, ?_⟩
  · simpa using ha
  · simpa using hb
  · intro j hj
    obtain ⟨hn1, hn2⟩ := hc j hj
    refine ⟨by rw [hn1]; omega, ?_⟩
    have e1 : (0 + j + 1 : ℕ) = (j + 1 : ℕ) := by omega
    have e2 : (0 + j : ℕ) = (j : ℕ) := by omega
    rw [e1, e2] at hn2
    exact hn2


set_option maxHeartbeats 2000000 in
/-- C6 counterexample: on a 5-sample file with `dt = 1 s` and constant
period `P = 2.6 s`, the iteration yields 2 pulses — `round(2.6) = 3`
samples then `round(5.2) = 5 <= 5` lets a second read succeed — whereas
the claim's formula `floor(N*dt/P) = floor(25/13)` predicts 1. -/
theorem C6_pulses_counterexample :
    ∃ L, (pulses dfive (fun _ => 13/5) 0 3).1 = .ok L ∧
      L.length = 2 ∧
      ⌊((dfive.inf.n : ℚ) * dfive.inf.dt) / (13/5)⌋ = 1 ∧
      (L.length : ℤ) ≠ ⌊((dfive.inf.n : ℚ) * dfive.inf.dt) / (13/5)⌋ := by
  norm_num [pulses, pulses_aux, read_Tseconds, dunder_read, fromfile,
    mkDatfile, rewind, update_desired_time, npround, dfive, infGBT]

/-- C6 witness: the amended characterisation instantiated on the
5-sample reader with `P = 2.6 s` and fuel 4. -/
theorem C6_pulses_const_spec_witness :
    ∃ L, (pulses dfive (fun _ => 13/5) 0 4).1 = .ok L ∧
      npround ((L.length : ℚ) * (13/5) / dfive.inf.dt) ≤ (dfive.inf.n : ℤ) ∧
      (dfive.inf.n : ℤ)
        < npround (((L.length + 1 : ℕ) : ℚ) * (13/5) / dfive.inf.dt) ∧
      ∀ j, ∀ hj : j < L.length,
        (L.get ⟨j, hj⟩).number = j + 1 ∧
        (L.get ⟨j, hj⟩).profile.length =
          (npround (((j + 1 : ℕ) : ℚ) * (13/5) / dfive.inf.dt)
            - npround (((j : ℕ) : ℚ) * (13/5) / dfive.inf.dt)).toNat :=
  C6_pulses_const_spec dfive (13/5) 4 50000 rfl
    (by norm_num [dfive, mkDatfile, rewind, infGBT])
    (by norm_num)
    (by norm_num [dfive, mkDatfile, rewind, infGBT])
    (by norm_num [dfive, mkDatfile, rewind, infGBT, npround])

end Pypulsar
